import Mathlib

/-!
Verification of the gvasm command-line front end (`src/main.ts`).

The development embeds the argument-parsing and validation layer of the
tool: the generic flag parser, the key=value define grammar, the five
per-command validators (`init`, `make`, `run`, `dis`, `itest`) and the
top-level dispatcher.  The validators and the dispatcher are translated
directly from `src/main.ts`; the flag parser (`argParse`, re-exported by
a dependency module), the define lexer (`lexKeyValue` from `lexer.ts`)
and `Path.replaceExt` are not part of the given sources and are
modelled from the specification.
-/

set_option autoImplicit false

namespace Gvasm

/-! ## Flag parser -/

/-- The declarative flag schema a command hands to the flag parser:
recognized string-valued flags, recognized boolean flags, the
short-to-long alias table, and whether flag recognition stops at the
first positional operand. -/
structure FlagSchema where
  stringFlags : List String
  booleanFlags : List String
  aliases : List (String × String)
  stopEarly : Bool

/-- The raw result of flag parsing: all string-flag occurrences in
encounter order (canonical name, value), the boolean flags that were
set, the positional operands in order, and whether an unrecognized
flag was reported (the unknown-flag callback in `main.ts` prints the
offending key, sets `badArgs` and rejects the token). -/
structure RawArgs where
  strs : List (String × String)
  bools : List String
  pos : List String
  bad : Bool
deriving DecidableEq

/-- Scalar read of a string flag: last occurrence wins (absent means
the JS value `undefined`). -/
def RawArgs.getStr (r : RawArgs) (k : String) : Option String :=
  r.strs.foldl (fun acc kv => if kv.1 == k then some kv.2 else acc) none

/-- Collect read of a string flag: every occurrence, in encounter order. -/
def RawArgs.getAll (r : RawArgs) (k : String) : List String :=
  (r.strs.filter (fun kv => kv.1 == k)).map (fun kv => kv.2)

/-- Read of a boolean flag: declared boolean flags default to `false`,
presence sets them to `true`. -/
def RawArgs.getBool (r : RawArgs) (k : String) : Bool :=
  r.bools.contains k

/-- Internal parser state: accumulated raw arguments, a string flag
waiting for its value token, and whether `stopEarly` flag scanning has
ended. -/
structure PState where
  acc : RawArgs
  pending : Option String
  stopped : Bool

/-- Resolve a short alias to its canonical long flag name. -/
def canon (sch : FlagSchema) (k : String) : String :=
  match sch.aliases.lookup k with
  | some c => c
  | none => k

/-- Split a flag body at the first `=`:  `NAME` alone, or
`NAME` plus the inline value (which may itself contain `=`). -/
def splitAtEq : List Char → List Char × Option (List Char)
  | [] => ([], none)
  | '=' :: rest => ([], some rest)
  | c :: rest =>
    let p := splitAtEq rest
    (c :: p.1, p.2)

/-- Record one recognized-or-not flag token: booleans are set to true,
string flags either take their inline value or wait for the next
token, and an unrecognized flag marks the parse failed (the token is
dropped, as the rejecting callback demands). -/
def recordFlag (sch : FlagSchema) (st : PState) (kcs : List Char) (vcs : Option (List Char)) : PState :=
  let k := canon sch (String.mk kcs)
  if sch.booleanFlags.contains k then
    { st with acc := { st.acc with bools := st.acc.bools ++ [k] } }
  else if sch.stringFlags.contains k then
    match vcs with
    | some v => { st with acc := { st.acc with strs := st.acc.strs ++ [(k, String.mk v)] } }
    | none => { st with pending := some k }
  else
    { st with acc := { st.acc with bad := true } }

/-- Modelled from the spec: the loop of the generic flag parser
(section 4.1), which is provided by a dependency module and is not
among the given sources.  Long tokens `--name` and short tokens `-n`
resolve through the alias table; a string flag consumes the following
token as its value unless an inline `=value` was given; every other
token is a positional operand; with `stopEarly`, everything after the
first positional operand is a positional operand. -/
def parseLoop (sch : FlagSchema) : List String → PState → RawArgs
  | [], st =>
    match st.pending with
    | some k => { st.acc with strs := st.acc.strs ++ [(k, "")] }
    | none => st.acc
  | t :: rest, st =>
    match st.pending with
    | some k =>
      parseLoop sch rest
        { acc := { st.acc with strs := st.acc.strs ++ [(k, t)] }, pending := none,
          stopped := st.stopped }
    | none =>
      if st.stopped then
        parseLoop sch rest { st with acc := { st.acc with pos := st.acc.pos ++ [t] } }
      else
        match t.toList with
        | '-' :: '-' :: c :: cs =>
          let p := splitAtEq (c :: cs)
          parseLoop sch rest (recordFlag sch st p.1 p.2)
        | '-' :: c :: cs =>
          if c == '-' then
            parseLoop sch rest
              { st with stopped := sch.stopEarly,
                        acc := { st.acc with pos := st.acc.pos ++ [t] } }
          else
            let p := splitAtEq (c :: cs)
            parseLoop sch rest (recordFlag sch st p.1 p.2)
        | _ =>
          parseLoop sch rest
            { st with stopped := sch.stopEarly,
                      acc := { st.acc with pos := st.acc.pos ++ [t] } }

/-- Modelled from the spec: the generic flag parser entry point
(section 4.1), provided by a dependency module. -/
def argParse (sch : FlagSchema) (args : List String) : RawArgs :=
  parseLoop sch args
    { acc := { strs := [], bools := [], pos := [], bad := false }, pending := none,
      stopped := false }

/-! ## Small JS-semantics helpers -/

/-- JS template-literal stringification of a possibly-undefined string
value: `undefined` prints as the text "undefined". -/
def jsUndefStr : Option String → String
  | none => "undefined"
  | some s => s

/-- `String.substr(0, n)` of JS: the first `n` characters. -/
def takeChars (s : String) (n : Nat) : String :=
  String.mk (s.toList.take n)

/-- Whitespace skipped by JS `parseInt`: the ECMA WhiteSpace and
LineTerminator code points (tab, LF, VT, FF, CR, space, NBSP, Ogham
space mark, the U+2000..200A spaces, LS, PS, narrow NBSP, medium
mathematical space, ideographic space, ZWNBSP). -/
def isJsSpace (c : Char) : Bool :=
  c == ' ' || c == '\t' || c == '\n' || c == '\r' ||
  c.toNat == 0x0B || c.toNat == 0x0C || c.toNat == 0xA0 ||
  c.toNat == 0x1680 || (Nat.ble 0x2000 c.toNat && Nat.ble c.toNat 0x200A) ||
  c.toNat == 0x2028 || c.toNat == 0x2029 || c.toNat == 0x202F ||
  c.toNat == 0x205F || c.toNat == 0x3000 || c.toNat == 0xFEFF

/-- Value of the leading decimal-digit run, or `none` when there is no
leading digit. -/
def digitsPrefixVal (cs : List Char) : Option Nat :=
  let ds := cs.takeWhile Char.isDigit
  if ds.isEmpty then none
  else some (ds.foldl (fun acc c => acc * 10 + (c.toNat - 48)) 0)

/-- JS `parseInt(s, 10)`: skip leading whitespace, take an optional
sign and then the longest run of decimal digits; `none` stands for
`NaN` (no digit found). -/
def parseInt10 (s : String) : Option Int :=
  match s.toList.dropWhile isJsSpace with
  | '-' :: rest => (digitsPrefixVal rest).map (fun n => -(Int.ofNat n))
  | '+' :: rest => (digitsPrefixVal rest).map Int.ofNat
  | cs => (digitsPrefixVal cs).map Int.ofNat

/-! ## Key=value define grammar -/

/-- The value of a define: an integer when the text after `=` is a
full (optionally signed) base-10 literal, the verbatim string
otherwise. -/
inductive LexVal where
  | num : Int → LexVal
  | str : String → LexVal
deriving DecidableEq

/-- One parsed `NAME=value` define. -/
structure ILexKeyValue where
  name : String
  value : LexVal
deriving DecidableEq

/-- Does a character list form a full base-10 integer literal
(optional leading minus, at least one digit, digits only)? -/
def isIntLiteral : List Char → Bool
  | '-' :: rest => !rest.isEmpty && rest.all Char.isDigit
  | cs => !cs.isEmpty && cs.all Char.isDigit

/-- Numeric value of a full base-10 integer literal. -/
def intLiteralVal : List Char → Int
  | '-' :: rest => -(Int.ofNat (rest.foldl (fun acc c => acc * 10 + (c.toNat - 48)) 0))
  | cs => Int.ofNat (cs.foldl (fun acc c => acc * 10 + (c.toNat - 48)) 0)

/-- Modelled from the spec: `lexKeyValue` from `lexer.ts` (section
4.3), which is not among the given sources.  Split at the first `=`;
the name must be non-empty; the value is an integer exactly when it is
a full signed base-10 literal, and the verbatim string otherwise.
`none` models the JS return value `false`. -/
def lexKeyValue (s : String) : Option ILexKeyValue :=
  match splitAtEq s.toList with
  | (_, none) => none
  | ([], some _) => none
  | (ncs, some vcs) =>
    if isIntLiteral vcs then some ⟨String.mk ncs, .num (intLiteralVal vcs)⟩
    else some ⟨String.mk ncs, .str (String.mk vcs)⟩

/-- `parseDefines` from `main.ts`: parse each `-d` token in order; the
first token that fails to lex aborts with a message naming it. -/
def parseDefines : List String → Except String (List ILexKeyValue)
  | [] => .ok []
  | d :: rest =>
    match lexKeyValue d with
    | none => .error ("Invalid define: " ++ d)
    | some kv =>
      match parseDefines rest with
      | .error e => .error e
      | .ok tl => .ok (kv :: tl)

/-- Modelled from the spec: `Path.replaceExt` from a dependency module
(section 4.2), not among the given sources.  The trailing extension
component, if any, is removed and the new extension appended; a path
without an extension simply gets the new extension appended. -/
def replaceExt (p ext : String) : String :=
  let rev := p.toList.reverse
  if rev.contains '.' then
    String.mk ((rev.dropWhile (fun c => !(c == '.'))).drop 1).reverse ++ ext
  else p ++ ext

/-! ## Validator results -/

/-- Outcome of a per-command validator, mirroring the
`number | IArgs` return convention of `main.ts`: `helpShown` is the
`return 0` after printing the command help, `err` is the `return 1`
after printing a message to the error stream, and `ok` carries the
validated command descriptor. -/
inductive CmdResult (α : Type) where
  | helpShown : CmdResult α
  | err : String → CmdResult α
  | ok : α → CmdResult α
deriving DecidableEq

/-- The exit code a validator outcome stands for; `none` for a
descriptor, whose exit code is the collaborator's. -/
def CmdResult.exitCode {α : Type} : CmdResult α → Option Nat
  | .helpShown => some 0
  | .err _ => some 1
  | .ok _ => none

/-! ## init -/

/-- The `init` command descriptor (`IInitArgs`). -/
structure IInitArgs where
  output : String
  title : String
  initials : String
  maker : String
  version : Int
  region : String
  code : String
  overwrite : Bool
deriving DecidableEq

/-- The flag schema `parseInitArgs` passes to `argParse`. -/
def initSchema : FlagSchema where
  stringFlags := ["title", "initials", "maker", "version", "region", "code"]
  booleanFlags := ["help", "overwrite"]
  aliases := [("h", "help"), ("t", "title"), ("i", "initials"), ("m", "maker"),
              ("v", "version"), ("r", "region"), ("c", "code")]
  stopEarly := false

/-- `parseInitArgs` from `main.ts`.  Note two faithful JS details: the
initials default is computed from the raw, possibly-undefined `a.title`
(template-literal stringification), and the version check applies
`parseInt` (the `Math.floor` comparison in the source is vacuous for
an integer result and is subsumed here by the integer model). -/
def parseInitArgs (args : List String) : CmdResult IInitArgs :=
  let a := argParse initSchema args
  if a.bad then .err "Unknown argument"
  else if a.getBool "help" then .helpShown
  else if a.pos.length ≤ 0 then .err "Missing output file"
  else if 1 < a.pos.length then .err "Can only have one output file"
  else
    let output := a.pos.headD ""
    let title := (a.getStr "title").getD "Game"
    if 12 < title.length then
      .err ("Invalid title, must be at most 12 characters, but got: \"" ++ title ++ "\"")
    else
      let initials := (a.getStr "initials").getD (takeChars (jsUndefStr (a.getStr "title") ++ "AA") 2)
      if initials.length ≠ 2 then
        .err ("Invalid initials, must be 2 characters, but got: \"" ++ initials ++ "\"")
      else
        let maker := (a.getStr "maker").getD "77"
        if maker.length ≠ 2 then
          .err ("Invalid maker, must be 2 characters, but got: \"" ++ maker ++ "\"")
        else
          match parseInt10 ((a.getStr "version").getD "0") with
          | none => .err "Invalid version, must be 0..255, but got: NaN"
          | some version =>
            if version < 0 ∨ 255 < version then
              .err ("Invalid version, must be 0..255, but got: " ++ toString version)
            else
              let region := (a.getStr "region").getD "E"
              if region.length ≠ 1 then
                .err ("Invalid region, must be 1 character, but got: \"" ++ region ++ "\"")
              else
                let code := (a.getStr "code").getD "C"
                if code.length ≠ 1 then
                  .err ("Invalid code, must be 1 character, but got: \"" ++ code ++ "\"")
                else
                  .ok { output := output, title := title, initials := initials,
                        maker := maker, version := version, region := region,
                        code := code, overwrite := a.getBool "overwrite" }

/-! ## make -/

/-- The JS type `string | false` of the `execute` field. -/
inductive ExecuteVal where
  | falseVal : ExecuteVal
  | strVal : String → ExecuteVal
deriving DecidableEq

/-- The `make` command descriptor (`IMakeArgs`). -/
structure IMakeArgs where
  input : String
  output : String
  defines : List ILexKeyValue
  watch : Bool
  execute : ExecuteVal
deriving DecidableEq

/-- The flag schema `parseMakeArgs` passes to `argParse`; `define` is a
collect flag. -/
def makeSchema : FlagSchema where
  stringFlags := ["output", "define", "execute"]
  booleanFlags := ["help", "watch"]
  aliases := [("h", "help"), ("o", "output"), ("d", "define"), ("w", "watch"),
              ("x", "execute")]
  stopEarly := false

/-- The `a.execute ?? false` line of `parseMakeArgs`: the raw string
flag when present, the JS literal `false` otherwise. -/
def executeOf (a : RawArgs) : ExecuteVal :=
  match a.getStr "execute" with
  | some s => .strVal s
  | none => .falseVal

/-- `parseMakeArgs` from `main.ts`. -/
def parseMakeArgs (args : List String) : CmdResult IMakeArgs :=
  let a := argParse makeSchema args
  if a.bad then .err "Unknown argument"
  else if a.getBool "help" then .helpShown
  else if a.pos.length ≤ 0 then .err "Missing input file"
  else if 1 < a.pos.length then .err "Can only have one input file"
  else
    let input := a.pos.headD ""
    match parseDefines (a.getAll "define") with
    | .error e => .err e
    | .ok defines =>
      .ok { input := input,
            output := (a.getStr "output").getD (replaceExt input ".gba"),
            defines := defines,
            watch := a.getBool "watch",
            execute := executeOf a }

/-! ## run -/

/-- The `run` command descriptor as `parseRunArgs` actually builds it:
`return { input, defines }` — the parsed `watch` flag is not part of
the returned object. -/
structure IRunArgs where
  input : String
  defines : List ILexKeyValue
deriving DecidableEq

/-- The flag schema `parseRunArgs` passes to `argParse`; it does
declare the boolean `watch` flag with alias `w`. -/
def runSchema : FlagSchema where
  stringFlags := ["define"]
  booleanFlags := ["help", "watch"]
  aliases := [("h", "help"), ("d", "define"), ("w", "watch")]
  stopEarly := false

/-- `parseRunArgs` from `main.ts`. -/
def parseRunArgs (args : List String) : CmdResult IRunArgs :=
  let a := argParse runSchema args
  if a.bad then .err "Unknown argument"
  else if a.getBool "help" then .helpShown
  else if a.pos.length ≤ 0 then .err "Missing input file"
  else if 1 < a.pos.length then .err "Can only have one input file"
  else
    let input := a.pos.headD ""
    match parseDefines (a.getAll "define") with
    | .error e => .err e
    | .ok defines => .ok { input := input, defines := defines }

/-! ## dis -/

/-- The `dis` command descriptor (`IDisArgs`). -/
structure IDisArgs where
  input : String
  format : String
  output : String
deriving DecidableEq

/-- The flag schema `parseDisArgs` passes to `argParse`. -/
def disSchema : FlagSchema where
  stringFlags := ["output", "format"]
  booleanFlags := ["help"]
  aliases := [("h", "help"), ("o", "output"), ("f", "format")]
  stopEarly := false

/-- `parseDisArgs` from `main.ts`. -/
def parseDisArgs (args : List String) : CmdResult IDisArgs :=
  let a := argParse disSchema args
  if a.bad then .err "Unknown argument"
  else if a.getBool "help" then .helpShown
  else if a.pos.length ≤ 0 then .err "Missing input file"
  else if 1 < a.pos.length then .err "Can only have one input file"
  else
    let input := a.pos.headD ""
    let format := (a.getStr "format").getD "gba"
    if format ≠ "gba" ∧ format ≠ "bin" then
      .err ("Invalid format, must be \x27gba\x27 or \x27bin\x27, but got: " ++ format)
    else
      .ok { input := input, format := format,
            output := (a.getStr "output").getD (replaceExt input ".gvasm") }

/-! ## itest -/

/-- The `itest` command descriptor (`IItestArgs`). -/
structure IItestArgs where
  filters : List String
deriving DecidableEq

/-- The flag schema `parseItestArgs` passes to `argParse`: `stopEarly`
is set so filters that look like flags stay positional. -/
def itestSchema : FlagSchema where
  stringFlags := []
  booleanFlags := ["help"]
  aliases := [("h", "help")]
  stopEarly := true

/-- `parseItestArgs` from `main.ts`. -/
def parseItestArgs (args : List String) : CmdResult IItestArgs :=
  let a := argParse itestSchema args
  if a.bad then .err "Unknown argument"
  else if a.getBool "help" then .helpShown
  else .ok { filters := a.pos }

/-! ## Dispatcher -/

/-- What the top-level dispatcher does with an argument vector:
print the version banner and the command summary (exit 0), print the
version banner alone (exit 0), return a validator's terminal exit
code, hand a descriptor to one of the five collaborators, or report an
unknown command (exit 1). -/
inductive MainAction where
  | versionAndHelp : MainAction
  | versionOnly : MainAction
  | exit : Nat → MainAction
  | runInit : IInitArgs → MainAction
  | runMake : IMakeArgs → MainAction
  | runRun : IRunArgs → MainAction
  | runDis : IDisArgs → MainAction
  | runItest : IItestArgs → MainAction
  | unknownCommand : String → MainAction
deriving DecidableEq

/-- The `typeof x === "number"` branch of the dispatcher: a terminal
exit code is returned as is, a descriptor goes to the collaborator. -/
def liftResult {α : Type} (invoke : α → MainAction) : CmdResult α → MainAction
  | .helpShown => .exit 0
  | .err _ => .exit 1
  | .ok d => invoke d

/-- `main` from `main.ts`: the flat dispatch over the first token. -/
def main (args : List String) : MainAction :=
  match args with
  | [] => .versionAndHelp
  | tok :: rest =>
    if tok = "-h" ∨ tok = "--help" then .versionAndHelp
    else if tok = "-v" ∨ tok = "--version" then .versionOnly
    else if tok = "init" then liftResult .runInit (parseInitArgs rest)
    else if tok = "make" then liftResult .runMake (parseMakeArgs rest)
    else if tok = "run" then liftResult .runRun (parseRunArgs rest)
    else if tok = "dis" then liftResult .runDis (parseDisArgs rest)
    else if tok = "itest" then liftResult .runItest (parseItestArgs rest)
    else .unknownCommand tok

/-- Exit code of a dispatcher action; `none` when a collaborator
decides it. -/
def MainAction.exitCode : MainAction → Option Nat
  | .versionAndHelp => some 0
  | .versionOnly => some 0
  | .exit n => some n
  | .unknownCommand _ => some 1
  | _ => none

/-! ## Helper lemmas -/

/-- A successful `init` validation passed both positional-count gates. -/
theorem init_ok_pos {args : List String} {d : IInitArgs}
    (h : parseInitArgs args = .ok d) : (argParse initSchema args).pos.length = 1 := by
  cases hb : (argParse initSchema args).bad
  · cases hh : (argParse initSchema args).getBool "help"
    · by_contra hne
      by_cases h0 : (argParse initSchema args).pos.length ≤ 0
      · simp [parseInitArgs, hb, hh, h0] at h
      · have h1 : 1 < (argParse initSchema args).pos.length := by omega
        simp [parseInitArgs, hb, hh, h0, h1] at h
    · simp [parseInitArgs, hb, hh] at h
  · simp [parseInitArgs, hb] at h

/-- A successful `make` validation passed both positional-count gates. -/
theorem make_ok_pos {args : List String} {d : IMakeArgs}
    (h : parseMakeArgs args = .ok d) : (argParse makeSchema args).pos.length = 1 := by
  cases hb : (argParse makeSchema args).bad
  · cases hh : (argParse makeSchema args).getBool "help"
    · by_contra hne
      by_cases h0 : (argParse makeSchema args).pos.length ≤ 0
      · simp [parseMakeArgs, hb, hh, h0] at h
      · have h1 : 1 < (argParse makeSchema args).pos.length := by omega
        simp [parseMakeArgs, hb, hh, h0, h1] at h
    · simp [parseMakeArgs, hb, hh] at h
  · simp [parseMakeArgs, hb] at h

/-- A successful `run` validation passed both positional-count gates. -/
theorem run_ok_pos {args : List String} {d : IRunArgs}
    (h : parseRunArgs args = .ok d) : (argParse runSchema args).pos.length = 1 := by
  cases hb : (argParse runSchema args).bad
  · cases hh : (argParse runSchema args).getBool "help"
    · by_contra hne
      by_cases h0 : (argParse runSchema args).pos.length ≤ 0
      · simp [parseRunArgs, hb, hh, h0] at h
      · have h1 : 1 < (argParse runSchema args).pos.length := by omega
        simp [parseRunArgs, hb, hh, h0, h1] at h
    · simp [parseRunArgs, hb, hh] at h
  · simp [parseRunArgs, hb] at h

/-- A successful `dis` validation passed both positional-count gates. -/
theorem dis_ok_pos {args : List String} {d : IDisArgs}
    (h : parseDisArgs args = .ok d) : (argParse disSchema args).pos.length = 1 := by
  cases hb : (argParse disSchema args).bad
  · cases hh : (argParse disSchema args).getBool "help"
    · by_contra hne
      by_cases h0 : (argParse disSchema args).pos.length ≤ 0
      · simp [parseDisArgs, hb, hh, h0] at h
      · have h1 : 1 < (argParse disSchema args).pos.length := by omega
        simp [parseDisArgs, hb, hh, h0, h1] at h
    · simp [parseDisArgs, hb, hh] at h
  · simp [parseDisArgs, hb] at h

/-- The exact descriptor a successful `make` validation returns, in
terms of the raw parse: positional input, defaulted output, the lexed
defines, the watch flag and the execute value. -/
theorem make_ok_shape {args : List String} {d : IMakeArgs}
    (h : parseMakeArgs args = .ok d) :
    d = ⟨(argParse makeSchema args).pos.headD "",
         ((argParse makeSchema args).getStr "output").getD
           (replaceExt ((argParse makeSchema args).pos.headD "") ".gba"),
         d.defines,
         (argParse makeSchema args).getBool "watch",
         executeOf (argParse makeSchema args)⟩ ∧
    parseDefines ((argParse makeSchema args).getAll "define") = .ok d.defines := by
  have hp := make_ok_pos h
  cases hb : (argParse makeSchema args).bad
  · cases hh : (argParse makeSchema args).getBool "help"
    · have h0 : ¬((argParse makeSchema args).pos.length ≤ 0) := by omega
      have h1 : ¬(1 < (argParse makeSchema args).pos.length) := by omega
      cases hd : parseDefines ((argParse makeSchema args).getAll "define") with
      | error e => simp [parseMakeArgs, hb, hh, h0, h1, hd] at h
      | ok tl =>
        have he : parseMakeArgs args =
            .ok ⟨(argParse makeSchema args).pos.headD "",
                 ((argParse makeSchema args).getStr "output").getD
                   (replaceExt ((argParse makeSchema args).pos.headD "") ".gba"),
                 tl,
                 (argParse makeSchema args).getBool "watch",
                 executeOf (argParse makeSchema args)⟩ := by
          simp [parseMakeArgs, hb, hh, h0, h1, hd]
        rw [he] at h
        injection h with h2
        subst h2
        exact ⟨rfl, rfl⟩
    · simp [parseMakeArgs, hb, hh] at h
  · simp [parseMakeArgs, hb] at h

/-- The exact descriptor a successful `dis` validation returns, and
the fact that its format passed the enumeration check. -/
theorem dis_ok_shape {args : List String} {d : IDisArgs}
    (h : parseDisArgs args = .ok d) :
    d = ⟨(argParse disSchema args).pos.headD "",
         ((argParse disSchema args).getStr "format").getD "gba",
         ((argParse disSchema args).getStr "output").getD
           (replaceExt ((argParse disSchema args).pos.headD "") ".gvasm")⟩ ∧
    (d.format = "gba" ∨ d.format = "bin") := by
  have hp := dis_ok_pos h
  cases hb : (argParse disSchema args).bad
  · cases hh : (argParse disSchema args).getBool "help"
    · have h0 : ¬((argParse disSchema args).pos.length ≤ 0) := by omega
      have h1 : ¬(1 < (argParse disSchema args).pos.length) := by omega
      by_cases hf : ((argParse disSchema args).getStr "format").getD "gba" ≠ "gba" ∧
          ((argParse disSchema args).getStr "format").getD "gba" ≠ "bin"
      · simp [parseDisArgs, hb, hh, h0, h1, hf] at h
      · have he : parseDisArgs args =
            .ok ⟨(argParse disSchema args).pos.headD "",
                 ((argParse disSchema args).getStr "format").getD "gba",
                 ((argParse disSchema args).getStr "output").getD
                   (replaceExt ((argParse disSchema args).pos.headD "") ".gvasm")⟩ := by
          simp [parseDisArgs, hb, hh, h0, h1, hf]
        rw [he] at h
        injection h with h2
        subst h2
        refine ⟨rfl, ?_⟩
        rcases not_and_or.mp hf with hg | hn
        · exact Or.inl (not_not.mp hg)
        · exact Or.inr (not_not.mp hn)
    · simp [parseDisArgs, hb, hh] at h
  · simp [parseDisArgs, hb] at h

/-- The exact descriptor a successful `run` validation returns. -/
theorem run_ok_shape {args : List String} {d : IRunArgs}
    (h : parseRunArgs args = .ok d) :
    d = ⟨(argParse runSchema args).pos.headD "", d.defines⟩ ∧
    parseDefines ((argParse runSchema args).getAll "define") = .ok d.defines := by
  have hp := run_ok_pos h
  cases hb : (argParse runSchema args).bad
  · cases hh : (argParse runSchema args).getBool "help"
    · have h0 : ¬((argParse runSchema args).pos.length ≤ 0) := by omega
      have h1 : ¬(1 < (argParse runSchema args).pos.length) := by omega
      cases hd : parseDefines ((argParse runSchema args).getAll "define") with
      | error e => simp [parseRunArgs, hb, hh, h0, h1, hd] at h
      | ok tl =>
        have he : parseRunArgs args =
            .ok ⟨(argParse runSchema args).pos.headD "", tl⟩ := by
          simp [parseRunArgs, hb, hh, h0, h1, hd]
        rw [he] at h
        injection h with h2
        subst h2
        exact ⟨rfl, rfl⟩
    · simp [parseRunArgs, hb, hh] at h
  · simp [parseRunArgs, hb] at h

/-- `parseDefines` stops at the first token the define lexer rejects
and names exactly that token. -/
theorem parseDefines_first_bad (ds1 : List String) (t : String) (ds2 : List String)
    (hok : ∀ e ∈ ds1, (lexKeyValue e).isSome) (ht : lexKeyValue t = none) :
    parseDefines (ds1 ++ t :: ds2) = .error ("Invalid define: " ++ t) := by
  induction ds1 with
  | nil => simp [parseDefines, ht]
  | cons e es ih =>
    have he := hok e (by simp)
    obtain ⟨kv, hkv⟩ := Option.isSome_iff_exists.mp he
    have hes : ∀ x ∈ es, (lexKeyValue x).isSome := fun x hx => hok x (by simp [hx])
    simp [parseDefines, hkv, ih hes]

/-! ## Claims -/

/-- C1: the claim says `init x` (no flags) yields the fully defaulted
descriptor with `initials = "Ga"` (first two characters of the
defaulted title plus "AA").  The code computes the default from the
raw, undefined title flag, so the descriptor it actually produces has
`initials = "un"` (the first two characters of "undefinedAA"),
contradicting the claim and the command's own help text. -/
theorem init_no_flags_descriptor :
    parseInitArgs ["x"] = .ok ⟨"x", "Game", "un", "77", 0, "E", "C", false⟩ := by decide

/-- C2 counterexample: the claim says that for every command an
argument list containing `-h` anywhere yields help and exit 0 even
when the list contains an unrecognized flag; but every validator
checks the unknown-flag failure before the help flag, so
`init -z -h` exits 1 without showing help. -/
theorem help_unknown_flag_cex :
    parseInitArgs ["-z", "-h"] = .err "Unknown argument" ∧
    (parseInitArgs ["-z", "-h"]).exitCode = some 1 := by decide

/-- C2 (amended): for each of the five commands, when the flag parser
reports no unrecognized flag and the help flag parsed true, the
validator shows help and returns 0, whatever else is in the argument
list. -/
theorem help_short_circuits (args : List String) :
    ((argParse initSchema args).bad = false → (argParse initSchema args).getBool "help" = true →
      parseInitArgs args = .helpShown) ∧
    ((argParse makeSchema args).bad = false → (argParse makeSchema args).getBool "help" = true →
      parseMakeArgs args = .helpShown) ∧
    ((argParse runSchema args).bad = false → (argParse runSchema args).getBool "help" = true →
      parseRunArgs args = .helpShown) ∧
    ((argParse disSchema args).bad = false → (argParse disSchema args).getBool "help" = true →
      parseDisArgs args = .helpShown) ∧
    ((argParse itestSchema args).bad = false → (argParse itestSchema args).getBool "help" = true →
      parseItestArgs args = .helpShown) := by
  refine ⟨?_, ?_, ?_, ?_, ?_⟩ <;> intro hb hh
  · simp [parseInitArgs, hb, hh]
  · simp [parseMakeArgs, hb, hh]
  · simp [parseRunArgs, hb, hh]
  · simp [parseDisArgs, hb, hh]
  · simp [parseItestArgs, hb, hh]

/-- C2 witness: help short-circuits otherwise-invalid argument lists
with no unknown flag, for `init` (two positionals) and `itest`
(extra filters). -/
theorem help_short_circuits_witness :
    parseInitArgs ["-h", "a", "b"] = .helpShown ∧
    parseItestArgs ["--help", "foo", "bar"] = .helpShown :=
  ⟨(help_short_circuits ["-h", "a", "b"]).1 (by decide) (by decide),
   (help_short_circuits ["--help", "foo", "bar"]).2.2.2.2 (by decide) (by decide)⟩

/-- C3: the claim says the `run` descriptor contains a boolean watch
field; the validator parses `-w` (the flag is recognized, no error)
but returns only `{ input, defines }`, so the descriptor of
`run a.gvasm -w` carries no watch field at all. -/
theorem run_watch_dropped :
    parseRunArgs ["a.gvasm", "-w"] = .ok ⟨"a.gvasm", []⟩ ∧
    (argParse runSchema ["a.gvasm", "-w"]).getBool "watch" = true := by decide

/-- C4: each of `init`, `make`, `run` and `dis` succeeds only with
exactly one positional operand; with the unknown-flag and help gates
clear, zero positionals and two or more positionals each exit 1 with
the command's message, producing no descriptor. -/
theorem exactly_one_positional (args : List String) :
    (∀ d, parseInitArgs args = .ok d → (argParse initSchema args).pos.length = 1) ∧
    (∀ d, parseMakeArgs args = .ok d → (argParse makeSchema args).pos.length = 1) ∧
    (∀ d, parseRunArgs args = .ok d → (argParse runSchema args).pos.length = 1) ∧
    (∀ d, parseDisArgs args = .ok d → (argParse disSchema args).pos.length = 1) ∧
    ((argParse initSchema args).bad = false → (argParse initSchema args).getBool "help" = false →
      ((argParse initSchema args).pos.length = 0 → parseInitArgs args = .err "Missing output file") ∧
      (1 < (argParse initSchema args).pos.length →
        parseInitArgs args = .err "Can only have one output file")) ∧
    ((argParse makeSchema args).bad = false → (argParse makeSchema args).getBool "help" = false →
      ((argParse makeSchema args).pos.length = 0 → parseMakeArgs args = .err "Missing input file") ∧
      (1 < (argParse makeSchema args).pos.length →
        parseMakeArgs args = .err "Can only have one input file")) ∧
    ((argParse runSchema args).bad = false → (argParse runSchema args).getBool "help" = false →
      ((argParse runSchema args).pos.length = 0 → parseRunArgs args = .err "Missing input file") ∧
      (1 < (argParse runSchema args).pos.length →
        parseRunArgs args = .err "Can only have one input file")) ∧
    ((argParse disSchema args).bad = false → (argParse disSchema args).getBool "help" = false →
      ((argParse disSchema args).pos.length = 0 → parseDisArgs args = .err "Missing input file") ∧
      (1 < (argParse disSchema args).pos.length →
        parseDisArgs args = .err "Can only have one input file")) := by
  refine ⟨fun d h => init_ok_pos h, fun d h => make_ok_pos h,
          fun d h => run_ok_pos h, fun d h => dis_ok_pos h, ?_, ?_, ?_, ?_⟩ <;>
    intro hb hh <;> refine ⟨fun h0 => ?_, fun h1 => ?_⟩
  · have h2 : (argParse initSchema args).pos.length ≤ 0 := by omega
    simp [parseInitArgs, hb, hh, h2]
  · have h2 : ¬((argParse initSchema args).pos.length ≤ 0) := by omega
    simp [parseInitArgs, hb, hh, h2, h1]
  · have h2 : (argParse makeSchema args).pos.length ≤ 0 := by omega
    simp [parseMakeArgs, hb, hh, h2]
  · have h2 : ¬((argParse makeSchema args).pos.length ≤ 0) := by omega
    simp [parseMakeArgs, hb, hh, h2, h1]
  · have h2 : (argParse runSchema args).pos.length ≤ 0 := by omega
    simp [parseRunArgs, hb, hh, h2]
  · have h2 : ¬((argParse runSchema args).pos.length ≤ 0) := by omega
    simp [parseRunArgs, hb, hh, h2, h1]
  · have h2 : (argParse disSchema args).pos.length ≤ 0 := by omega
    simp [parseDisArgs, hb, hh, h2]
  · have h2 : ¬((argParse disSchema args).pos.length ≤ 0) := by omega
    simp [parseDisArgs, hb, hh, h2, h1]

/-- C4 witness: zero and surplus positional operands at concrete
argument lists. -/
theorem exactly_one_positional_witness :
    parseInitArgs [] = .err "Missing output file" ∧
    parseInitArgs ["a", "b"] = .err "Can only have one output file" ∧
    parseMakeArgs [] = .err "Missing input file" ∧
    parseRunArgs ["a", "b"] = .err "Can only have one input file" ∧
    parseDisArgs [] = .err "Missing input file" :=
  ⟨((exactly_one_positional []).2.2.2.2.1 (by decide) (by decide)).1 (by decide),
   ((exactly_one_positional ["a", "b"]).2.2.2.2.1 (by decide) (by decide)).2 (by decide),
   ((exactly_one_positional []).2.2.2.2.2.1 (by decide) (by decide)).1 (by decide),
   ((exactly_one_positional ["a", "b"]).2.2.2.2.2.2.1 (by decide) (by decide)).2 (by decide),
   ((exactly_one_positional []).2.2.2.2.2.2.2 (by decide) (by decide)).1 (by decide)⟩

/-- C5: the dispatcher prints the banner and summary and exits 0 on an
empty vector or a leading help token, prints the banner and exits 0 on
a leading version token, runs the matching validator pipeline for the
five command tokens, and reports any other first token as an unknown
command with exit 1. -/
theorem dispatcher_cases (tok : String) (rest : List String) :
    main [] = .versionAndHelp ∧
    (tok = "-h" ∨ tok = "--help" → main (tok :: rest) = .versionAndHelp) ∧
    (tok = "-v" ∨ tok = "--version" → main (tok :: rest) = .versionOnly) ∧
    main ("init" :: rest) = liftResult .runInit (parseInitArgs rest) ∧
    main ("make" :: rest) = liftResult .runMake (parseMakeArgs rest) ∧
    main ("run" :: rest) = liftResult .runRun (parseRunArgs rest) ∧
    main ("dis" :: rest) = liftResult .runDis (parseDisArgs rest) ∧
    main ("itest" :: rest) = liftResult .runItest (parseItestArgs rest) ∧
    (tok ∉ (["-h", "--help", "-v", "--version", "init", "make", "run", "dis", "itest"] :
        List String) → main (tok :: rest) = .unknownCommand tok) ∧
    MainAction.exitCode .versionAndHelp = some 0 ∧
    MainAction.exitCode .versionOnly = some 0 ∧
    MainAction.exitCode (.unknownCommand tok) = some 1 := by
  refine ⟨rfl, ?_, ?_, rfl, rfl, rfl, rfl, rfl, ?_, rfl, rfl, rfl⟩
  · rintro (rfl | rfl) <;> rfl
  · rintro (rfl | rfl)
    · rfl
    · simp [main]
  · intro hne
    simp only [List.mem_cons, List.not_mem_nil, or_false, not_or] at hne
    obtain ⟨h1, h2, h3, h4, h5, h6, h7, h8, h9⟩ := hne
    simp [main, h1, h2, h3, h4, h5, h6, h7, h8, h9]

/-- C5 witness: a leading unknown token, a help token and a version
token at concrete argument vectors. -/
theorem dispatcher_cases_witness :
    main ["frobnicate"] = .unknownCommand "frobnicate" ∧
    main ["-h", "junk"] = .versionAndHelp ∧
    main ["--version"] = .versionOnly :=
  ⟨(dispatcher_cases "frobnicate" []).2.2.2.2.2.2.2.2.1 (by decide),
   (dispatcher_cases "-h" ["junk"]).2.1 (Or.inl rfl),
   (dispatcher_cases "--version" []).2.2.1 (Or.inr rfl)⟩

/-- C6: the `dis` format defaults to "gba" when `-f` is absent, a
successful descriptor's format is always "gba" or "bin", and a
supplied format outside that set fails with exit 1 and a message
naming the value. -/
theorem dis_format (args : List String) (v : String) :
    (∀ d, parseDisArgs args = .ok d →
      d.format = ((argParse disSchema args).getStr "format").getD "gba" ∧
      (d.format = "gba" ∨ d.format = "bin")) ∧
    ((argParse disSchema args).bad = false → (argParse disSchema args).getBool "help" = false →
      (argParse disSchema args).pos.length = 1 →
      (argParse disSchema args).getStr "format" = some v → v ≠ "gba" → v ≠ "bin" →
      parseDisArgs args = .err ("Invalid format, must be \x27gba\x27 or \x27bin\x27, but got: " ++ v)) := by
  constructor
  · intro d h
    obtain ⟨hshape, hmem⟩ := dis_ok_shape h
    exact ⟨by rw [hshape], hmem⟩
  · intro hb hh hp hf hv1 hv2
    have h0 : ¬((argParse disSchema args).pos.length ≤ 0) := by omega
    have h1 : ¬(1 < (argParse disSchema args).pos.length) := by omega
    simp [parseDisArgs, hb, hh, h0, h1, hf, hv1, hv2]

/-- C6 witness: an invalid supplied format and the absent-flag
default at concrete argument lists. -/
theorem dis_format_witness :
    parseDisArgs ["rom.bin", "-f", "xyz"] =
      .err "Invalid format, must be \x27gba\x27 or \x27bin\x27, but got: xyz" ∧
    ((⟨"rom.bin", "gba", "rom.gvasm"⟩ : IDisArgs).format = "gba" ∨
      (⟨"rom.bin", "gba", "rom.gvasm"⟩ : IDisArgs).format = "bin") :=
  ⟨(dis_format ["rom.bin", "-f", "xyz"] "xyz").2 (by decide) (by decide) (by decide)
      (by decide) (by decide) (by decide),
   ((dis_format ["rom.bin"] "").1 ⟨"rom.bin", "gba", "rom.gvasm"⟩ (by decide)).2⟩

/-- C7: `make a.gvasm -d FOO=1 -d BAR=bar` builds the defines in
encounter order with numeric typing; a successful `make` or `run`
descriptor's defines are exactly the in-order lex of the collected
`-d` tokens; and the first `-d` token the lexer rejects aborts the
command with exit 1 and a message naming that exact token. -/
theorem make_run_defines (args : List String) (ds1 : List String) (t : String)
    (ds2 : List String) :
    parseMakeArgs ["a.gvasm", "-d", "FOO=1", "-d", "BAR=bar"] =
      .ok ⟨"a.gvasm", "a.gba", [⟨"FOO", .num 1⟩, ⟨"BAR", .str "bar"⟩], false, .falseVal⟩ ∧
    (∀ d, parseMakeArgs args = .ok d →
      parseDefines ((argParse makeSchema args).getAll "define") = .ok d.defines) ∧
    (∀ d, parseRunArgs args = .ok d →
      parseDefines ((argParse runSchema args).getAll "define") = .ok d.defines) ∧
    ((argParse makeSchema args).bad = false → (argParse makeSchema args).getBool "help" = false →
      (argParse makeSchema args).pos.length = 1 →
      (argParse makeSchema args).getAll "define" = ds1 ++ t :: ds2 →
      (∀ e ∈ ds1, (lexKeyValue e).isSome) → lexKeyValue t = none →
      parseMakeArgs args = .err ("Invalid define: " ++ t)) ∧
    ((argParse runSchema args).bad = false → (argParse runSchema args).getBool "help" = false →
      (argParse runSchema args).pos.length = 1 →
      (argParse runSchema args).getAll "define" = ds1 ++ t :: ds2 →
      (∀ e ∈ ds1, (lexKeyValue e).isSome) → lexKeyValue t = none →
      parseRunArgs args = .err ("Invalid define: " ++ t)) := by
  refine ⟨by decide, fun d h => (make_ok_shape h).2, fun d h => (run_ok_shape h).2, ?_, ?_⟩
  · intro hb hh hp hall hok ht
    have h0 : ¬((argParse makeSchema args).pos.length ≤ 0) := by omega
    have h1 : ¬(1 < (argParse makeSchema args).pos.length) := by omega
    simp [parseMakeArgs, hb, hh, h0, h1, hall, parseDefines_first_bad ds1 t ds2 hok ht]
  · intro hb hh hp hall hok ht
    have h0 : ¬((argParse runSchema args).pos.length ≤ 0) := by omega
    have h1 : ¬(1 < (argParse runSchema args).pos.length) := by omega
    simp [parseRunArgs, hb, hh, h0, h1, hall, parseDefines_first_bad ds1 t ds2 hok ht]

/-- C7 witness: a `-d` token without `=` aborts `make` naming the
token. -/
theorem make_run_defines_witness :
    parseMakeArgs ["a.gvasm", "-d", "FOO"] = .err "Invalid define: FOO" :=
  (make_run_defines ["a.gvasm", "-d", "FOO"] [] "FOO" []).2.2.2.1
    (by decide) (by decide) (by decide) (by decide) (by decide) (by decide)

/-- C8: when `-o` is absent, a successful `make` descriptor's output
is the input path with its trailing extension component replaced by
".gba" (a path without a dot just gets ".gba" appended); in particular
`make a.gvasm` yields output "a.gba". -/
theorem make_output_default (args : List String) :
    (∀ d, parseMakeArgs args = .ok d → (argParse makeSchema args).getStr "output" = none →
      d.output = replaceExt d.input ".gba") ∧
    parseMakeArgs ["a.gvasm"] = .ok ⟨"a.gvasm", "a.gba", [], false, .falseVal⟩ ∧
    replaceExt "a.gvasm" ".gba" = "a.gba" ∧
    replaceExt "noext" ".gba" = "noext.gba" := by
  refine ⟨?_, by decide, by decide, by decide⟩
  intro d h ho
  obtain ⟨hshape, _⟩ := make_ok_shape h
  rw [hshape]
  simp [ho]

/-- C8 witness: the defaulted output of `make b.txt`. -/
theorem make_output_default_witness :
    (⟨"b.txt", "b.gba", [], false, .falseVal⟩ : IMakeArgs).output =
      replaceExt (⟨"b.txt", "b.gba", [], false, .falseVal⟩ : IMakeArgs).input ".gba" :=
  (make_output_default ["b.txt"]).1 ⟨"b.txt", "b.gba", [], false, .falseVal⟩
    (by decide) (by decide)

/-- C9: the `init` version check validates only the leading base-10
integer prefix of the `-v` value: any string whose `parseInt` prefix
lies in 0..255 passes with exactly that value in the descriptor (the
other fields taking their defaults), and a string with no parsable
prefix exits 1. -/
theorem init_version_leading_int (s : String) (v : Int) :
    (parseInt10 s = some v → 0 ≤ v → v ≤ 255 →
      parseInitArgs ["x", "-v", s] = .ok ⟨"x", "Game", "un", "77", v, "E", "C", false⟩) ∧
    (parseInt10 s = none →
      parseInitArgs ["x", "-v", s] = .err "Invalid version, must be 0..255, but got: NaN") := by
  have e : parseInitArgs ["x", "-v", s] =
      (match parseInt10 s with
       | none => CmdResult.err "Invalid version, must be 0..255, but got: NaN"
       | some w =>
         if w < 0 ∨ 255 < w then
           CmdResult.err ("Invalid version, must be 0..255, but got: " ++ toString w)
         else CmdResult.ok ⟨"x", "Game", "un", "77", w, "E", "C", false⟩) := rfl
  constructor
  · intro hp h0 h255
    rw [e, hp]
    show (if v < 0 ∨ 255 < v then _ else _) = _
    rw [if_neg (by omega)]
  · intro hp
    rw [e, hp]

/-- C9 witness: "7abc" passes with version 7 despite the trailing
letters; a vertical-tab-prefixed "7" also passes with version 7
(parseInt trims ECMA whitespace); "zz" has no integer prefix and
exits 1. -/
theorem init_version_leading_int_witness :
    parseInitArgs ["x", "-v", "7abc"] = .ok ⟨"x", "Game", "un", "77", 7, "E", "C", false⟩ ∧
    parseInitArgs ["x", "-v", "\x0B7"] = .ok ⟨"x", "Game", "un", "77", 7, "E", "C", false⟩ ∧
    parseInitArgs ["x", "-v", "zz"] = .err "Invalid version, must be 0..255, but got: NaN" :=
  ⟨(init_version_leading_int "7abc" 7).1 (by decide) (by decide) (by decide),
   (init_version_leading_int "\x0B7" 7).1 (by decide) (by decide) (by decide),
   (init_version_leading_int "zz" 0).2 (by decide)⟩

/-- C10: a successful `make` descriptor's execute field is the
literal false when `-x` is absent, and the supplied string verbatim
when `-x` is present. -/
theorem make_execute_field (args : List String) :
    ∀ d, parseMakeArgs args = .ok d →
      ((argParse makeSchema args).getStr "execute" = none → d.execute = .falseVal) ∧
      (∀ s, (argParse makeSchema args).getStr "execute" = some s → d.execute = .strVal s) := by
  intro d h
  obtain ⟨hshape, _⟩ := make_ok_shape h
  constructor
  · intro hx
    rw [hshape]
    simp [executeOf, hx]
  · intro s hx
    rw [hshape]
    simp [executeOf, hx]

/-- C10 witness: `make a.gvasm` (no `-x`) gets execute false;
`make a.gvasm -x runme` gets the verbatim command string. -/
theorem make_execute_field_witness :
    (⟨"a.gvasm", "a.gba", [], false, .falseVal⟩ : IMakeArgs).execute = .falseVal ∧
    (⟨"a.gvasm", "a.gba", [], false, .strVal "runme"⟩ : IMakeArgs).execute = .strVal "runme" :=
  ⟨(make_execute_field ["a.gvasm"] ⟨"a.gvasm", "a.gba", [], false, .falseVal⟩
      (by decide)).1 (by decide),
   (make_execute_field ["a.gvasm", "-x", "runme"]
      ⟨"a.gvasm", "a.gba", [], false, .strVal "runme"⟩ (by decide)).2 "runme" (by decide)⟩

end Gvasm
